import Mathlib

/-!
# Verification of the `util` helpers

A shallow embedding of the three Go source files

* `ternary/ternary.go`          (`Ternary`)
* `funcs/funcName.go`           (`Name`, `getFuncName`)
* `decorators/timeit/timer.go`  (`New`, `NewWithFuncNameInLog`)

followed by the theorems that settle the claims about them.

Modelling conventions.

* A Go `interface{}` argument is a `Value`; its `reflect.Kind` is `Value.kind`.
* A Go panic is an explicit result: `Except PanicValue _` for the pure helpers and
  `Outcome.panicked` for code that runs against the machine state.
* A `func()` is an `Action`: a function from the world before the call to the outcome of
  the call. An action may change the program memory, let time pass, write log lines of its
  own, and end by returning or by panicking. An action that never ends has no outcome and
  is outside the model; every statement below is about a call of the action that ends.
* The machine carries, next to the world, a trace of what the wrapper itself did (called
  the timed action, called `funcs.Name`, wrote a log line), so that "calls exactly once"
  and "never calls" are statements about the trace.
* `time.Duration.String` belongs to the Go runtime, not to this repository: it is the
  parameter `durStr` of the decorators.
* `timer.go` imports the name resolver under the alias `funcs`; `funcs.Name` there is the
  `Name` of `funcs/funcName.go`.
-/

namespace ternary

/-- Go `Ternary[T any](cond bool, ifTrue T, ifFalse T) T` (ternary.go:3-8). -/
def Ternary {T : Type} (cond : Bool) (ifTrue : T) (ifFalse : T) : T :=
  if cond then ifTrue else ifFalse

end ternary

namespace funcs

/-- The `reflect.Kind`s of the values modelled here. Every kind other than `Func` takes the
`default` branch of the `switch` in `Name`. -/
inductive Kind
  | Invalid
  | Bool
  | Int
  | String
  | Pointer
  | Func
  deriving DecidableEq, Repr

/-- A Go value passed as `interface{}`.

`nil` is the nil interface value. `pointer` is a value of pointer kind (address `0` is a
typed nil pointer, which is a non-nil interface value). `func q` is a value of function
kind for which `runtime.FuncForPC(reflect.ValueOf(v).Pointer()).Name()` is `q`; a nil
function value has `q = ""`. -/
inductive Value
  | nil
  | bool (b : Bool)
  | int (n : Int)
  | string (s : String)
  | pointer (addr : Nat)
  | func (q : String)
  deriving DecidableEq, Repr

/-- Go `reflect.ValueOf(v).Kind()`. -/
def Value.kind : Value → Kind
  | Value.nil => Kind.Invalid
  | Value.bool _ => Kind.Bool
  | Value.int _ => Kind.Int
  | Value.string _ => Kind.String
  | Value.pointer _ => Kind.Pointer
  | Value.func _ => Kind.Func

/-- The value a Go panic carries. -/
inductive PanicValue
  | value (v : Value)
  | indexOutOfRange (index : Nat) (length : Nat)
  | reflectValueError (method : String) (kind : Kind)
  deriving DecidableEq, Repr

/-- Go `strings.Split(s, sep)` for a one-character separator, on the characters of `s`:
the pieces between the occurrences of `sep`, in order. There is always at least one
piece. (Go splits bytes; the separator used by the source is the ASCII full stop, which
never occurs inside a multi-byte character, so splitting characters gives the same
pieces.) -/
def splitChars (sep : Char) : List Char → List (List Char)
  | [] => [[]]
  | c :: cs =>
    if c = sep then [] :: splitChars sep cs
    else
      match splitChars sep cs with
      | [] => [[c]]
      | piece :: pieces => (c :: piece) :: pieces

/-- Go `strings.Split(s, sep)` for a one-character separator. -/
def stringsSplit (s : String) (sep : Char) : List String :=
  (splitChars sep s.data).map String.mk

/-- Go `runtime.FuncForPC(reflect.ValueOf(function).Pointer()).Name()`: the fully
qualified name the runtime has for a function value. A data pointer is the entry of no
function, so `FuncForPC` gives nil, whose `Name()` is empty. `reflect.Value.Pointer`
panics on the kinds that have no pointer. -/
def runtimeFuncName : Value → Except PanicValue String
  | Value.func q => Except.ok q
  | Value.pointer _ => Except.ok ""
  | v => Except.error (PanicValue.reflectValueError "reflect.Value.Pointer" v.kind)

/-- Go `getFuncName` (funcName.go:18-21). The index expression `strs[len(strs)-1]`
panics when it is out of range; for an empty `strs` the index is `-1` in Go and the
truncated `0` here, out of range either way. -/
def getFuncName (function : Value) : Except PanicValue String :=
  match runtimeFuncName function with
  | Except.error p => Except.error p
  | Except.ok q =>
    let strs := stringsSplit q '.'
    match strs[strs.length - 1]? with
    | some s => Except.ok s
    | none => Except.error (PanicValue.indexOutOfRange (strs.length - 1) strs.length)

/-- The message `Name` panics with. -/
def notAFunction : PanicValue :=
  PanicValue.value (Value.string "funcname: argument must be a function")

/-- Go `Name` (funcName.go:9-16). -/
def Name (function : Value) : Except PanicValue String :=
  match function.kind with
  | Kind.Func => getFuncName function
  | _ => Except.error notAFunction

end funcs

namespace timer

open funcs

/-- What the timed action can see and change: the program memory, the monotonic clock
reading (nanoseconds, as an `int64` reading of Go's monotonic clock) and the lines
written so far to the standard logger. -/
structure World (σ : Type) where
  mem : σ
  clock : Int
  log : List String

/-- How a call ends: it returns a result, or it panics; either way it leaves a state. -/
inductive Outcome (α : Type) (S : Type)
  | returned (a : α) (s : S)
  | panicked (p : PanicValue) (s : S)

/-- A Go `func()`. -/
abbrev Action (σ : Type) := World σ → Outcome Unit (World σ)

/-- What a wrapper does itself, in order: a call of the timed action, a call of
`funcs.Name`, a line handed to the logger. -/
inductive Event
  | call
  | resolve (v : Value)
  | logged (line : String)
  deriving DecidableEq, Repr

/-- The world together with the trace of the wrapper's own steps. -/
structure Machine (σ : Type) where
  world : World σ
  trace : List Event

/-- The closure a decorator returns, run against the machine. -/
abbrev Wrapper (σ : Type) := Machine σ → Outcome Unit (Machine σ)

/-- Go `time.Now()`: the current reading of the monotonic clock. -/
def timeNow {σ : Type} (m : Machine σ) : Int :=
  m.world.clock

/-- Go `time.Since(start)`: the current monotonic reading minus the one in `start`. -/
def timeSince {σ : Type} (start : Int) (m : Machine σ) : Int :=
  m.world.clock - start

/-- The statement `f()`: the call is recorded in the trace, the action runs on the
world, and a panic of the action is a panic of the statement. -/
def callAction {σ : Type} (f : Action σ) (m : Machine σ) : Outcome Unit (Machine σ) :=
  match f m.world with
  | Outcome.returned _ w => Outcome.returned () { world := w, trace := m.trace ++ [Event.call] }
  | Outcome.panicked p w => Outcome.panicked p { world := w, trace := m.trace ++ [Event.call] }

/-- The expression `funcs.Name(v)`: the call is recorded in the trace; the world is not
touched. -/
def callName {σ : Type} (v : Value) (m : Machine σ) : Outcome String (Machine σ) :=
  match Name v with
  | Except.ok n => Outcome.returned n { m with trace := m.trace ++ [Event.resolve v] }
  | Except.error p => Outcome.panicked p { m with trace := m.trace ++ [Event.resolve v] }

/-- The text of the line the logger writes for a message, without the timestamp header:
Go's `log` adds the line terminator only when the message does not already end in one, so
the text is the message without one final newline. -/
def logLine (msg : String) : String :=
  match msg.data.getLast? with
  | some '\n' => String.mk msg.data.dropLast
  | _ => msg

/-- Go `log.Printf` after formatting: one line is appended to the log. -/
def logPrintf {σ : Type} (msg : String) (m : Machine σ) : Outcome Unit (Machine σ) :=
  Outcome.returned ()
    { world := { m.world with log := m.world.log ++ [logLine msg] },
      trace := m.trace ++ [Event.logged (logLine msg)] }

/-- The closure returned by `New` (timer.go:19-25). -/
def newClosure {σ : Type} (durStr : Int → String) (f : Action σ) : Wrapper σ := fun m =>
  let start := timeNow m
  match callAction f m with
  | Outcome.panicked p m1 => Outcome.panicked p m1
  | Outcome.returned _ m1 =>
    let elapsed := timeSince start m1
    logPrintf ("-- func executed in " ++ durStr elapsed ++ " --\n") m1

/-- Go `New` (timer.go:18-26): the call itself only builds the closure. -/
def New {σ : Type} (durStr : Int → String) (f : Action σ) (m : Machine σ) :
    Outcome (Wrapper σ) (Machine σ) :=
  Outcome.returned (newClosure durStr f) m

/-- The closure returned by `NewWithFuncNameInLog` (timer.go:117-128). -/
def newWithFuncNameInLogClosure {σ : Type} (durStr : Int → String) (isShowFuncName : Bool)
    (methodOrFunc : Value) (f : Action σ) : Wrapper σ := fun m =>
  let start := timeNow m
  match callAction f m with
  | Outcome.panicked p m1 => Outcome.panicked p m1
  | Outcome.returned _ m1 =>
    let elapsed := timeSince start m1
    let named : Outcome String (Machine σ) :=
      if isShowFuncName && methodOrFunc != Value.nil then
        match callName methodOrFunc m1 with
        | Outcome.panicked p m2 => Outcome.panicked p m2
        | Outcome.returned n m2 => Outcome.returned (n ++ " ") m2
      else Outcome.returned "" m1
    match named with
    | Outcome.panicked p m2 => Outcome.panicked p m2
    | Outcome.returned fName m2 =>
      logPrintf ("-- func " ++ fName ++ "executed in " ++ durStr elapsed ++ " --\n") m2

/-- Go `NewWithFuncNameInLog` (timer.go:116-129): the call itself only builds the
closure. -/
def NewWithFuncNameInLog {σ : Type} (durStr : Int → String) (isShowFuncName : Bool)
    (methodOrFunc : Value) (f : Action σ) (m : Machine σ) : Outcome (Wrapper σ) (Machine σ) :=
  Outcome.returned (newWithFuncNameInLogClosure durStr isShowFuncName methodOrFunc f) m

/-- The plain log record, in the words of the specification:
`-- func executed in <duration> --`. -/
def plainRecord (duration : String) : String :=
  "-- func executed in " ++ duration ++ " --"

/-- The named log record, in the words of the specification:
`-- func <name> executed in <duration> --`. -/
def namedRecord (name : String) (duration : String) : String :=
  "-- func " ++ name ++ " executed in " ++ duration ++ " --"

/-- The number of calls of the timed action recorded in a trace. -/
def callCount (tr : List Event) : Nat :=
  (tr.filter (fun e => match e with | Event.call => true | _ => false)).length

/-- The number of calls of `funcs.Name` recorded in a trace. -/
def resolveCount (tr : List Event) : Nat :=
  (tr.filter (fun e => match e with | Event.resolve _ => true | _ => false)).length

/-- The number of log lines recorded in a trace. -/
def loggedCount (tr : List Event) : Nat :=
  (tr.filter (fun e => match e with | Event.logged _ => true | _ => false)).length

/-- A stand-in for `time.Duration.String` used in the worked instances. -/
def sampleDurStr (d : Int) : String :=
  toString d ++ "ns"

/-- A starting machine for the worked instances: memory `0`, clock at `1000`, nothing
logged, empty trace. -/
def sampleMachine : Machine Nat :=
  { world := { mem := 0, clock := 1000, log := [] }, trace := [] }

/-- An action that returns normally: it bumps the memory and takes 583ns. -/
def sampleAction : Action Nat := fun w =>
  Outcome.returned () { w with mem := w.mem + 1, clock := w.clock + 583 }

/-- An action that panics with `"boom"` after bumping the memory and taking 7ns. -/
def samplePanicking : Action Nat := fun w =>
  Outcome.panicked (PanicValue.value (Value.string "boom"))
    { w with mem := w.mem + 1, clock := w.clock + 7 }

/-- Calling a wrapper `n` times in a row; a panic ends the sequence. -/
def invokeTimes {σ : Type} (wr : Wrapper σ) : Nat → Machine σ → Outcome Unit (Machine σ)
  | 0, m => Outcome.returned () m
  | n + 1, m =>
    match invokeTimes wr n m with
    | Outcome.panicked p m1 => Outcome.panicked p m1
    | Outcome.returned _ m1 => wr m1

end timer

/-! ## Facts about `strings.Split` and the logger line -/

namespace funcs

theorem splitChars_ne_nil (sep : Char) (cs : List Char) : splitChars sep cs ≠ [] := by
  cases cs with
  | nil => simp [splitChars]
  | cons c cs =>
    unfold splitChars
    split
    · simp
    · split <;> simp

theorem getLastOpt_cons_of_ne_nil {α : Type} (a : α) (l : List α) (h : l ≠ []) :
    (a :: l).getLast? = l.getLast? := by
  cases l with
  | nil => exact absurd rfl h
  | cons b l => exact List.getLast?_cons_cons

/-- The last piece of a split has no separator in it, and the input is either that piece
alone (no separator at all, one piece) or something, a separator, and that piece (at least
two pieces). -/
theorem splitChars_getLast (sep : Char) (cs : List Char) :
    ∃ r, (splitChars sep cs).getLast? = some r ∧ sep ∉ r ∧
      ((sep ∉ cs ∧ r = cs ∧ (splitChars sep cs).length = 1) ∨
       (∃ pre, cs = pre ++ sep :: r ∧ 2 ≤ (splitChars sep cs).length)) := by
  induction cs with
  | nil => exact ⟨[], by simp [splitChars]⟩
  | cons c cs ih =>
    obtain ⟨r, hlast, hr, hcase⟩ := ih
    by_cases hc : c = sep
    · subst hc
      refine ⟨r, ?_, hr, Or.inr ?_⟩
      · simp only [splitChars, if_true]
        rw [getLastOpt_cons_of_ne_nil _ _ (splitChars_ne_nil _ _)]
        exact hlast
      · rcases hcase with ⟨_, hrc, hlen⟩ | ⟨pre, hpre, hlen⟩
        · exact ⟨[], by simp [hrc], by simp [splitChars, hlen]⟩
        · exact ⟨c :: pre, by simp [hpre], by simp [splitChars]; omega⟩
    · cases hsplit : splitChars sep cs with
      | nil => exact absurd hsplit (splitChars_ne_nil _ _)
      | cons piece pieces =>
        rw [hsplit] at hlast hcase
        rcases hcase with ⟨hcs, hrc, hlen⟩ | ⟨pre, hpre, hlen⟩
        · have hp : pieces = [] := by
            cases pieces with
            | nil => rfl
            | cons _ _ => simp at hlen
          subst hp
          simp only [List.getLast?_singleton, Option.some.injEq] at hlast
          subst hlast
          subst hrc
          refine ⟨c :: piece, ?_, ?_, Or.inl ⟨?_, rfl, ?_⟩⟩
          · simp [splitChars, hc, hsplit]
          · simp [hcs, Ne.symm hc]
          · simp [hcs, Ne.symm hc]
          · simp [splitChars, hc, hsplit]
        · have hp : pieces ≠ [] := by
            intro h
            subst h
            simp at hlen
          rw [getLastOpt_cons_of_ne_nil _ _ hp] at hlast
          refine ⟨r, ?_, hr, Or.inr ⟨c :: pre, by simp [hpre], ?_⟩⟩
          · simp only [splitChars, hc, if_false, hsplit]
            rw [getLastOpt_cons_of_ne_nil _ _ hp]
            exact hlast
          · simp only [splitChars, hc, if_false, hsplit]
            simpa using hlen

/-- The index `len(strs)-1` is in range for the result of a split, and the element there is
the last piece. -/
theorem stringsSplit_last (q : String) (sep : Char) :
    ∃ r : List Char, (stringsSplit q sep)[(stringsSplit q sep).length - 1]? = some (String.mk r) ∧
      (splitChars sep q.data).getLast? = some r := by
  obtain ⟨r, hlast, -⟩ := splitChars_getLast sep q.data
  refine ⟨r, ?_, hlast⟩
  rw [← List.getLast?_eq_getElem?]
  simp [stringsSplit, List.getLast?_map, hlast]

/-- What `getFuncName` returns on a function value whose qualified name is `q`. -/
theorem getFuncName_func (q : String) :
    ∃ r : String, getFuncName (Value.func q) = Except.ok r ∧ '.' ∉ r.data ∧
      (('.' ∉ q.data ∧ r = q) ∨ ∃ pre : String, q = pre ++ "." ++ r) := by
  obtain ⟨r, hidx, hlast⟩ := stringsSplit_last q '.'
  obtain ⟨r', hlast', hr, hcase⟩ := splitChars_getLast '.' q.data
  rw [hlast] at hlast'
  obtain rfl : r = r' := by simpa using hlast'
  refine ⟨String.mk r, ?_, hr, ?_⟩
  · simp only [getFuncName, runtimeFuncName, hidx]
  · rcases hcase with ⟨hq, hrq, -⟩ | ⟨pre, hpre, -⟩
    · exact Or.inl ⟨hq, by rw [hrq]⟩
    · refine Or.inr ⟨String.mk pre, ?_⟩
      apply String.ext
      simp [hpre]

/-- What `Name` does, by the kind of its argument. -/
theorem Name_cases (v : Value) :
    (v.kind ≠ Kind.Func ∧ Name v = Except.error notAFunction) ∨
    (v.kind = Kind.Func ∧ ∃ n, Name v = Except.ok n) := by
  cases v with
  | func q =>
    obtain ⟨r, hr, -⟩ := getFuncName_func q
    exact Or.inr ⟨rfl, r, by simpa [Name, Value.kind] using hr⟩
  | _ => exact Or.inl ⟨by simp [Value.kind], rfl⟩

end funcs

namespace timer

open funcs

theorem logLine_append_newline (s : String) : logLine (s ++ "\n") = s := by
  simp [logLine]

theorem logLine_plain (d : String) :
    logLine ("-- func executed in " ++ d ++ " --\n") = plainRecord d := by
  have h : "-- func executed in " ++ d ++ " --\n" = plainRecord d ++ "\n" := by
    apply String.ext
    simp [plainRecord]
  rw [h, logLine_append_newline]

theorem logLine_named (n d : String) :
    logLine ("-- func " ++ (n ++ " ") ++ "executed in " ++ d ++ " --\n") = namedRecord n d := by
  have h : "-- func " ++ (n ++ " ") ++ "executed in " ++ d ++ " --\n" = namedRecord n d ++ "\n" := by
    apply String.ext
    simp [namedRecord]
  rw [h, logLine_append_newline]

/-- A named record is never a plain record for the same duration: it is longer. -/
theorem namedRecord_ne_plainRecord (n d : String) : namedRecord n d ≠ plainRecord d := by
  intro h
  have hlen := congrArg String.length h
  simp [namedRecord, plainRecord, String.length_append] at hlen
  have h1 : "-- func ".length = 8 := by decide
  have h2 : " executed in ".length = 13 := by decide
  have h3 : "-- func executed in ".length = 20 := by decide
  omega

/-! ## One invocation of each closure, case by case -/

theorem newClosure_of_returned {σ : Type} (durStr : Int → String) (f : Action σ)
    (m : Machine σ) (w1 : World σ) (hret : f m.world = Outcome.returned () w1) :
    newClosure durStr f m = Outcome.returned ()
      { world := { w1 with log := w1.log ++ [plainRecord (durStr (w1.clock - m.world.clock))] },
        trace := m.trace ++
          [Event.call, Event.logged (plainRecord (durStr (w1.clock - m.world.clock)))] } := by
  simp [newClosure, callAction, hret, logPrintf, timeSince, timeNow, logLine_plain]

theorem newClosure_of_panicked {σ : Type} (durStr : Int → String) (f : Action σ)
    (m : Machine σ) (p : PanicValue) (w1 : World σ) (hpanic : f m.world = Outcome.panicked p w1) :
    newClosure durStr f m =
      Outcome.panicked p { world := w1, trace := m.trace ++ [Event.call] } := by
  simp [newClosure, callAction, hpanic]

theorem namedClosure_of_panicked {σ : Type} (durStr : Int → String) (isShowFuncName : Bool)
    (methodOrFunc : Value) (f : Action σ) (m : Machine σ) (p : PanicValue) (w1 : World σ)
    (hpanic : f m.world = Outcome.panicked p w1) :
    newWithFuncNameInLogClosure durStr isShowFuncName methodOrFunc f m =
      Outcome.panicked p { world := w1, trace := m.trace ++ [Event.call] } := by
  simp [newWithFuncNameInLogClosure, callAction, hpanic]

theorem namedClosure_plain {σ : Type} (durStr : Int → String) (isShowFuncName : Bool)
    (methodOrFunc : Value) (f : Action σ) (m : Machine σ) (w1 : World σ)
    (hguard : (isShowFuncName && methodOrFunc != Value.nil) = false)
    (hret : f m.world = Outcome.returned () w1) :
    newWithFuncNameInLogClosure durStr isShowFuncName methodOrFunc f m = Outcome.returned ()
      { world := { w1 with log := w1.log ++ [plainRecord (durStr (w1.clock - m.world.clock))] },
        trace := m.trace ++
          [Event.call, Event.logged (plainRecord (durStr (w1.clock - m.world.clock)))] } := by
  simp only [newWithFuncNameInLogClosure, callAction, hret, hguard]
  simp [logPrintf, timeSince, timeNow, logLine_plain]

theorem namedClosure_named {σ : Type} (durStr : Int → String)
    (methodOrFunc : Value) (n : String) (f : Action σ) (m : Machine σ) (w1 : World σ)
    (hnil : methodOrFunc ≠ Value.nil) (hname : Name methodOrFunc = Except.ok n)
    (hret : f m.world = Outcome.returned () w1) :
    newWithFuncNameInLogClosure durStr true methodOrFunc f m = Outcome.returned ()
      { world :=
          { w1 with log := w1.log ++ [namedRecord n (durStr (w1.clock - m.world.clock))] },
        trace := m.trace ++
          [Event.call, Event.resolve methodOrFunc,
           Event.logged (namedRecord n (durStr (w1.clock - m.world.clock)))] } := by
  have hguard : (true && methodOrFunc != Value.nil) = true := by simpa using hnil
  simp only [newWithFuncNameInLogClosure, callAction, hret, hguard, callName, hname]
  simp [logPrintf, timeSince, timeNow, logLine_named]

theorem namedClosure_name_panics {σ : Type} (durStr : Int → String)
    (methodOrFunc : Value) (p : PanicValue) (f : Action σ) (m : Machine σ) (w1 : World σ)
    (hnil : methodOrFunc ≠ Value.nil) (hname : Name methodOrFunc = Except.error p)
    (hret : f m.world = Outcome.returned () w1) :
    newWithFuncNameInLogClosure durStr true methodOrFunc f m =
      Outcome.panicked p
        { world := w1, trace := m.trace ++ [Event.call, Event.resolve methodOrFunc] } := by
  have hguard : (true && methodOrFunc != Value.nil) = true := by simpa using hnil
  simp only [newWithFuncNameInLogClosure, callAction, hret, hguard, callName, hname]
  simp

/-- One invocation of the named closure when name resolution cannot panic: the flag is
off, or the name source is nil, or it is a function. -/
theorem namedClosure_step {σ : Type} (durStr : Int → String) (isShowFuncName : Bool)
    (methodOrFunc : Value) (f : Action σ) (m : Machine σ) (w1 : World σ)
    (hsrc : isShowFuncName = false ∨ methodOrFunc = Value.nil ∨ methodOrFunc.kind = Kind.Func)
    (hret : f m.world = Outcome.returned () w1) :
    ∃ line steps,
      (line = plainRecord (durStr (w1.clock - m.world.clock)) ∧
          steps = [Event.call, Event.logged line] ∨
        ∃ name, Name methodOrFunc = Except.ok name ∧
          line = namedRecord name (durStr (w1.clock - m.world.clock)) ∧
          steps = [Event.call, Event.resolve methodOrFunc, Event.logged line]) ∧
      newWithFuncNameInLogClosure durStr isShowFuncName methodOrFunc f m =
        Outcome.returned ()
          { world := { w1 with log := w1.log ++ [line] }, trace := m.trace ++ steps } := by
  by_cases hguard : (isShowFuncName && methodOrFunc != Value.nil) = false
  · exact ⟨_, _, Or.inl ⟨rfl, rfl⟩,
      namedClosure_plain durStr isShowFuncName methodOrFunc f m w1 hguard hret⟩
  · have hshow : isShowFuncName = true := by
      cases isShowFuncName
      · simp at hguard
      · rfl
    have hnil : methodOrFunc ≠ Value.nil := by
      intro h
      simp [h] at hguard
    have hkind : methodOrFunc.kind = Kind.Func := by
      rcases hsrc with h | h | h
      · rw [hshow] at h
        cases h
      · exact absurd h hnil
      · exact h
    obtain ⟨name, hname⟩ : ∃ name, Name methodOrFunc = Except.ok name := by
      cases hv : methodOrFunc with
      | func q =>
        obtain ⟨r, hr, -⟩ := getFuncName_func q
        exact ⟨r, by simpa [Name, Value.kind] using hr⟩
      | _ => simp [hv, Value.kind] at hkind
    subst hshow
    exact ⟨_, _, Or.inr ⟨name, hname, rfl, rfl⟩,
      namedClosure_named durStr methodOrFunc name f m w1 hnil hname hret⟩

/-- A wrapper whose every invocation returns, after one call and one log line, can be
invoked any number of times; the calls and the log lines add up. -/
theorem invokeTimes_counts {σ : Type} (wr : Wrapper σ)
    (hstep : ∀ m, ∃ m1, wr m = Outcome.returned () m1 ∧
      callCount m1.trace = callCount m.trace + 1 ∧
      loggedCount m1.trace = loggedCount m.trace + 1)
    (n : Nat) (m : Machine σ) :
    ∃ mn, invokeTimes wr n m = Outcome.returned () mn ∧
      callCount mn.trace = callCount m.trace + n ∧
      loggedCount mn.trace = loggedCount m.trace + n := by
  induction n with
  | zero => exact ⟨m, rfl, rfl, rfl⟩
  | succ n ih =>
    obtain ⟨mn, hmn, hc, hl⟩ := ih
    obtain ⟨m1, hm1, hc1, hl1⟩ := hstep mn
    refine ⟨m1, ?_, by omega, by omega⟩
    simp only [invokeTimes, hmn, hm1]

theorem invokeTimes_succ_of_returned {σ : Type} (wr : Wrapper σ) (n : Nat) (m mn : Machine σ)
    (h : invokeTimes wr n m = Outcome.returned () mn) :
    invokeTimes wr (n + 1) m = wr mn := by
  simp only [invokeTimes, h]

end timer

/-! ## The claims -/

/-- C8: for every type `T`, `Ternary(cond, ifTrue, ifFalse)` is `ifTrue` when `cond` is true
and `ifFalse` when `cond` is false; in particular `Ternary(cond, x, x) = x` and
`Ternary(!cond, a, b) = Ternary(cond, b, a)`. -/
theorem ternary_selects {T : Type} (cond : Bool) (ifTrue ifFalse : T) :
    ternary.Ternary true ifTrue ifFalse = ifTrue ∧
    ternary.Ternary false ifTrue ifFalse = ifFalse ∧
    ternary.Ternary cond ifTrue ifTrue = ifTrue ∧
    ternary.Ternary (!cond) ifTrue ifFalse = ternary.Ternary cond ifFalse ifTrue := by
  cases cond <;> simp [ternary.Ternary]

/-- C5: on a function value whose qualified runtime name is `q`, `Name` returns a string
`r` that has no full stop in it and is exactly the part of `q` after its last full stop:
either `q` has no full stop and `r = q`, or `q = pre ++ "." ++ r`. So `q` ends with `r`;
`"bar.foo"` gives `"foo"`; the index `len(strs)-1` is in range, and `Name` never panics on
a function value. -/
theorem name_is_last_segment (q : String) :
    (∃ r : String, funcs.Name (funcs.Value.func q) = Except.ok r ∧ '.' ∉ r.data ∧
      (('.' ∉ q.data ∧ r = q) ∨ ∃ pre : String, q = pre ++ "." ++ r) ∧
      (∃ pre : String, q = pre ++ r)) ∧
    (funcs.stringsSplit q '.').length - 1 < (funcs.stringsSplit q '.').length ∧
    funcs.Name (funcs.Value.func "bar.foo") = Except.ok "foo" := by
  refine ⟨?_, ?_, rfl⟩
  · obtain ⟨r, hr, hdot, hcase⟩ := funcs.getFuncName_func q
    refine ⟨r, by simpa [funcs.Name, funcs.Value.kind] using hr, hdot, hcase, ?_⟩
    rcases hcase with ⟨-, hrq⟩ | ⟨pre, hpre⟩
    · exact ⟨"", by rw [hrq]; simp⟩
    · exact ⟨pre ++ ".", hpre⟩
  · have h := funcs.splitChars_ne_nil '.' q.data
    have hlen : 0 < (funcs.stringsSplit q '.').length := by
      simp only [funcs.stringsSplit, List.length_map]
      exact List.length_pos.mpr h
    omega

/-- C6: `Name` panics, with the message "funcname: argument must be a function", exactly on
the values whose kind is not `Func`, and returns a string on every value of kind `Func`;
an integer, a string and the nil interface value all make it panic. -/
theorem name_panics_iff_not_func (v : funcs.Value) :
    ((v.kind ≠ funcs.Kind.Func ∧
        funcs.Name v = Except.error
          (funcs.PanicValue.value (funcs.Value.string "funcname: argument must be a function"))) ∨
     (v.kind = funcs.Kind.Func ∧ ∃ n, funcs.Name v = Except.ok n)) ∧
    ((∃ p, funcs.Name v = Except.error p) ↔ v.kind ≠ funcs.Kind.Func) ∧
    funcs.Name (funcs.Value.int 42) = Except.error funcs.notAFunction ∧
    funcs.Name (funcs.Value.string "foo") = Except.error funcs.notAFunction ∧
    funcs.Name funcs.Value.nil = Except.error funcs.notAFunction := by
  refine ⟨funcs.Name_cases v, ?_, rfl, rfl, rfl⟩
  rcases funcs.Name_cases v with ⟨hk, hp⟩ | ⟨hk, n, hn⟩
  · exact ⟨fun _ => hk, fun _ => ⟨_, hp⟩⟩
  · constructor
    · rintro ⟨p, hp⟩
      rw [hn] at hp
      cases hp
    · intro h
      exact absurd hk h

/-- C1: calling `New(f)` only builds the wrapper (the machine, and with it the log and the
trace, is unchanged). When `f` returns normally, one invocation of the wrapper calls `f`
exactly once and then appends exactly one log record, `-- func executed in <duration> --`,
to the log as `f` left it; the duration is the clock reading after `f` minus the reading
before it, which is not negative for a clock that does not run backwards. -/
theorem new_times_and_logs_once {σ : Type} (durStr : Int → String) (f : timer.Action σ)
    (m0 m : timer.Machine σ) (w1 : timer.World σ)
    (hret : f m.world = timer.Outcome.returned () w1)
    (hmono : m.world.clock ≤ w1.clock) :
    ∃ wr, timer.New durStr f m0 = timer.Outcome.returned wr m0 ∧
      ∃ m1, wr m = timer.Outcome.returned () m1 ∧
        m1.trace = m.trace ++
          [timer.Event.call,
           timer.Event.logged (timer.plainRecord (durStr (w1.clock - m.world.clock)))] ∧
        m1.world.log = w1.log ++ [timer.plainRecord (durStr (w1.clock - m.world.clock))] ∧
        m1.world.mem = w1.mem ∧ m1.world.clock = w1.clock ∧
        timer.callCount m1.trace = timer.callCount m.trace + 1 ∧
        timer.loggedCount m1.trace = timer.loggedCount m.trace + 1 ∧
        w1.clock - m.world.clock = timer.timeSince (timer.timeNow m) m1 ∧
        0 ≤ w1.clock - m.world.clock := by
  refine ⟨timer.newClosure durStr f, rfl, _, timer.newClosure_of_returned durStr f m w1 hret,
    rfl, rfl, rfl, rfl, ?_, ?_, ?_, ?_⟩
  · simp [timer.callCount, List.filter_append]
  · simp [timer.loggedCount, List.filter_append]
  · simp [timer.timeSince, timer.timeNow]
  · omega

/-- C1, a worked instance: the sample action on the sample machine. -/
theorem new_times_and_logs_once_witness :
    (timer.sampleAction timer.sampleMachine.world =
        timer.Outcome.returned () { mem := 1, clock := 1583, log := [] } ∧
      timer.sampleMachine.world.clock ≤ (1583 : Int)) ∧
    ∃ wr, timer.New timer.sampleDurStr timer.sampleAction timer.sampleMachine =
        timer.Outcome.returned wr timer.sampleMachine ∧
      ∃ m1, wr timer.sampleMachine = timer.Outcome.returned () m1 ∧
        m1.trace = timer.sampleMachine.trace ++
          [timer.Event.call,
           timer.Event.logged (timer.plainRecord
             (timer.sampleDurStr (1583 - timer.sampleMachine.world.clock)))] ∧
        m1.world.log = [] ++ [timer.plainRecord
             (timer.sampleDurStr (1583 - timer.sampleMachine.world.clock))] ∧
        m1.world.mem = 1 ∧ m1.world.clock = 1583 ∧
        timer.callCount m1.trace = timer.callCount timer.sampleMachine.trace + 1 ∧
        timer.loggedCount m1.trace = timer.loggedCount timer.sampleMachine.trace + 1 ∧
        1583 - timer.sampleMachine.world.clock =
          timer.timeSince (timer.timeNow timer.sampleMachine) m1 ∧
        0 ≤ 1583 - timer.sampleMachine.world.clock :=
  ⟨⟨rfl, by decide⟩,
   new_times_and_logs_once timer.sampleDurStr timer.sampleAction timer.sampleMachine
     timer.sampleMachine { mem := 1, clock := 1583, log := [] } rfl (by decide)⟩

/-- C2: when the action panics with value `p`, an invocation of the wrapper built by `New`
or by `NewWithFuncNameInLog` (any `showName`, any `nameSource`) ends in a panic with the
same value `p`; the world is exactly as the action left it, so no log record is appended;
and the trace gains the call of the action and nothing else, so `Name` is never called. -/
theorem panic_of_action_propagates {σ : Type} (durStr : Int → String) (isShowFuncName : Bool)
    (methodOrFunc : funcs.Value) (f : timer.Action σ) (m0 m : timer.Machine σ)
    (p : funcs.PanicValue) (w1 : timer.World σ)
    (hpanic : f m.world = timer.Outcome.panicked p w1) :
    (∃ wr, timer.New durStr f m0 = timer.Outcome.returned wr m0 ∧
      ∃ m1, wr m = timer.Outcome.panicked p m1 ∧
        m1.world = w1 ∧ m1.trace = m.trace ++ [timer.Event.call] ∧
        timer.loggedCount m1.trace = timer.loggedCount m.trace ∧
        timer.resolveCount m1.trace = timer.resolveCount m.trace) ∧
    (∃ wr, timer.NewWithFuncNameInLog durStr isShowFuncName methodOrFunc f m0 =
        timer.Outcome.returned wr m0 ∧
      ∃ m1, wr m = timer.Outcome.panicked p m1 ∧
        m1.world = w1 ∧ m1.trace = m.trace ++ [timer.Event.call] ∧
        timer.loggedCount m1.trace = timer.loggedCount m.trace ∧
        timer.resolveCount m1.trace = timer.resolveCount m.trace) :=
  ⟨⟨_, rfl, _, timer.newClosure_of_panicked durStr f m p w1 hpanic, rfl, rfl,
      by simp [timer.loggedCount, List.filter_append],
      by simp [timer.resolveCount, List.filter_append]⟩,
   ⟨_, rfl, _,
      timer.namedClosure_of_panicked durStr isShowFuncName methodOrFunc f m p w1 hpanic, rfl, rfl,
      by simp [timer.loggedCount, List.filter_append],
      by simp [timer.resolveCount, List.filter_append]⟩⟩

/-- C2, a worked instance: the panicking sample action, with the flag on and a name source
that is not even callable. -/
theorem panic_of_action_propagates_witness :
    timer.samplePanicking timer.sampleMachine.world =
      timer.Outcome.panicked (funcs.PanicValue.value (funcs.Value.string "boom"))
        { mem := 1, clock := 1007, log := [] } ∧
    (∃ wr, timer.New timer.sampleDurStr timer.samplePanicking timer.sampleMachine =
        timer.Outcome.returned wr timer.sampleMachine ∧
      ∃ m1, wr timer.sampleMachine =
          timer.Outcome.panicked (funcs.PanicValue.value (funcs.Value.string "boom")) m1 ∧
        m1.world = { mem := 1, clock := 1007, log := [] } ∧
        m1.trace = timer.sampleMachine.trace ++ [timer.Event.call] ∧
        timer.loggedCount m1.trace = timer.loggedCount timer.sampleMachine.trace ∧
        timer.resolveCount m1.trace = timer.resolveCount timer.sampleMachine.trace) ∧
    (∃ wr, timer.NewWithFuncNameInLog timer.sampleDurStr true (funcs.Value.int 5)
        timer.samplePanicking timer.sampleMachine =
        timer.Outcome.returned wr timer.sampleMachine ∧
      ∃ m1, wr timer.sampleMachine =
          timer.Outcome.panicked (funcs.PanicValue.value (funcs.Value.string "boom")) m1 ∧
        m1.world = { mem := 1, clock := 1007, log := [] } ∧
        m1.trace = timer.sampleMachine.trace ++ [timer.Event.call] ∧
        timer.loggedCount m1.trace = timer.loggedCount timer.sampleMachine.trace ∧
        timer.resolveCount m1.trace = timer.resolveCount timer.sampleMachine.trace) :=
  ⟨rfl,
   panic_of_action_propagates timer.sampleDurStr true (funcs.Value.int 5) timer.samplePanicking
     timer.sampleMachine timer.sampleMachine (funcs.PanicValue.value (funcs.Value.string "boom"))
     { mem := 1, clock := 1007, log := [] } rfl⟩

/-- C3: `NewWithFuncNameInLog(false, nil, f)` and `New(f)` are the same wrapper: the two
closures are equal as functions of the machine (so from the same clock, log and trace
they finish the same way, whatever `f` does), and when `f` returns normally each of them
calls `f` once and appends the same record `-- func executed in <duration> --`, with no name segment
and a single space between "func" and "executed". -/
theorem unnamed_wrapper_equals_plain {σ : Type} (durStr : Int → String) (f : timer.Action σ) :
    timer.newWithFuncNameInLogClosure durStr false funcs.Value.nil f = timer.newClosure durStr f ∧
    (∀ m0 : timer.Machine σ,
      timer.NewWithFuncNameInLog durStr false funcs.Value.nil f m0 = timer.New durStr f m0) ∧
    (∀ (m : timer.Machine σ) (w1 : timer.World σ), f m.world = timer.Outcome.returned () w1 →
      timer.newWithFuncNameInLogClosure durStr false funcs.Value.nil f m =
        timer.Outcome.returned ()
          { world := { w1 with log := w1.log ++
              ["-- func executed in " ++ durStr (w1.clock - m.world.clock) ++ " --"] },
            trace := m.trace ++ [timer.Event.call, timer.Event.logged
              ("-- func executed in " ++ durStr (w1.clock - m.world.clock) ++ " --")] } ∧
      timer.newClosure durStr f m =
        timer.Outcome.returned ()
          { world := { w1 with log := w1.log ++
              ["-- func executed in " ++ durStr (w1.clock - m.world.clock) ++ " --"] },
            trace := m.trace ++ [timer.Event.call, timer.Event.logged
              ("-- func executed in " ++ durStr (w1.clock - m.world.clock) ++ " --")] }) := by
  have heq : timer.newWithFuncNameInLogClosure durStr false funcs.Value.nil f =
      timer.newClosure durStr f := by
    funext m
    cases hf : f m.world with
    | returned a w1 =>
      cases a
      rw [timer.namedClosure_plain durStr false funcs.Value.nil f m w1 rfl hf,
        timer.newClosure_of_returned durStr f m w1 hf]
    | panicked p w1 =>
      rw [timer.namedClosure_of_panicked durStr false funcs.Value.nil f m p w1 hf,
        timer.newClosure_of_panicked durStr f m p w1 hf]
  refine ⟨heq, ?_, ?_⟩
  · intro m0
    simp only [timer.NewWithFuncNameInLog, timer.New, heq]
  · intro m w1 hf
    exact ⟨timer.namedClosure_plain durStr false funcs.Value.nil f m w1 rfl hf,
      timer.newClosure_of_returned durStr f m w1 hf⟩

/-- C3, a worked instance: the sample action, run through both wrappers. -/
theorem unnamed_wrapper_equals_plain_witness :
    timer.sampleAction timer.sampleMachine.world =
      timer.Outcome.returned () { mem := 1, clock := 1583, log := [] } ∧
    timer.newWithFuncNameInLogClosure timer.sampleDurStr false funcs.Value.nil timer.sampleAction
        timer.sampleMachine =
      timer.Outcome.returned ()
        { world := { mem := 1, clock := 1583, log := [] ++
            ["-- func executed in " ++ timer.sampleDurStr (1583 - 1000) ++ " --"] },
          trace := [] ++ [timer.Event.call, timer.Event.logged
            ("-- func executed in " ++ timer.sampleDurStr (1583 - 1000) ++ " --")] } ∧
    timer.newClosure timer.sampleDurStr timer.sampleAction timer.sampleMachine =
      timer.Outcome.returned ()
        { world := { mem := 1, clock := 1583, log := [] ++
            ["-- func executed in " ++ timer.sampleDurStr (1583 - 1000) ++ " --"] },
          trace := [] ++ [timer.Event.call, timer.Event.logged
            ("-- func executed in " ++ timer.sampleDurStr (1583 - 1000) ++ " --")] } :=
  ⟨rfl,
   (unnamed_wrapper_equals_plain timer.sampleDurStr timer.sampleAction).2.2
     timer.sampleMachine { mem := 1, clock := 1583, log := [] } rfl⟩

/-- C4: when `f` returns normally and `Name(nameSource)` is `n`, one invocation of
`NewWithFuncNameInLog(true, nameSource, f)` calls `f` exactly once, then `Name` once, and
appends exactly one record, `"-- func " ++ n ++ " executed in " ++ <duration> ++ " --"`:
the name, then exactly one space, then "executed". -/
theorem named_wrapper_logs_name {σ : Type} (durStr : Int → String) (methodOrFunc : funcs.Value)
    (n : String) (f : timer.Action σ) (m0 m : timer.Machine σ) (w1 : timer.World σ)
    (hname : funcs.Name methodOrFunc = Except.ok n)
    (hret : f m.world = timer.Outcome.returned () w1) :
    ∃ wr, timer.NewWithFuncNameInLog durStr true methodOrFunc f m0 =
        timer.Outcome.returned wr m0 ∧
      ∃ m1, wr m = timer.Outcome.returned () m1 ∧
        m1.trace = m.trace ++
          [timer.Event.call, timer.Event.resolve methodOrFunc,
           timer.Event.logged
             ("-- func " ++ n ++ " executed in " ++ durStr (w1.clock - m.world.clock) ++ " --")] ∧
        m1.world.log = w1.log ++
          ["-- func " ++ n ++ " executed in " ++ durStr (w1.clock - m.world.clock) ++ " --"] ∧
        m1.world.mem = w1.mem ∧ m1.world.clock = w1.clock ∧
        timer.callCount m1.trace = timer.callCount m.trace + 1 ∧
        timer.loggedCount m1.trace = timer.loggedCount m.trace + 1 := by
  have hnil : methodOrFunc ≠ funcs.Value.nil := by
    intro h
    rw [h] at hname
    cases hname
  refine ⟨_, rfl, _, timer.namedClosure_named durStr methodOrFunc n f m w1 hnil hname hret,
    rfl, rfl, rfl, rfl, ?_, ?_⟩
  · simp [timer.callCount, List.filter_append]
  · simp [timer.loggedCount, List.filter_append]

/-- C4, a worked instance: the name source is the function `main.isPalindrome`. -/
theorem named_wrapper_logs_name_witness :
    (funcs.Name (funcs.Value.func "main.isPalindrome") = Except.ok "isPalindrome" ∧
      timer.sampleAction timer.sampleMachine.world =
        timer.Outcome.returned () { mem := 1, clock := 1583, log := [] }) ∧
    ∃ wr, timer.NewWithFuncNameInLog timer.sampleDurStr true
        (funcs.Value.func "main.isPalindrome") timer.sampleAction timer.sampleMachine =
        timer.Outcome.returned wr timer.sampleMachine ∧
      ∃ m1, wr timer.sampleMachine = timer.Outcome.returned () m1 ∧
        m1.trace = timer.sampleMachine.trace ++
          [timer.Event.call, timer.Event.resolve (funcs.Value.func "main.isPalindrome"),
           timer.Event.logged
             ("-- func " ++ "isPalindrome" ++ " executed in " ++
               timer.sampleDurStr (1583 - timer.sampleMachine.world.clock) ++ " --")] ∧
        m1.world.log = [] ++
          ["-- func " ++ "isPalindrome" ++ " executed in " ++
            timer.sampleDurStr (1583 - timer.sampleMachine.world.clock) ++ " --"] ∧
        m1.world.mem = 1 ∧ m1.world.clock = 1583 ∧
        timer.callCount m1.trace = timer.callCount timer.sampleMachine.trace + 1 ∧
        timer.loggedCount m1.trace = timer.loggedCount timer.sampleMachine.trace + 1 :=
  ⟨⟨rfl, rfl⟩,
   named_wrapper_logs_name timer.sampleDurStr (funcs.Value.func "main.isPalindrome")
     "isPalindrome" timer.sampleAction timer.sampleMachine timer.sampleMachine
     { mem := 1, clock := 1583, log := [] } rfl rfl⟩

/-- C10: for a name source that is not nil and not callable, calling
`NewWithFuncNameInLog(true, nameSource, f)` only builds the wrapper and does not panic; an
invocation, from any machine state on which `f` returns normally, first calls `f` once
(the world is left as `f` left it), then calls `Name`, and panics with
"funcname: argument must be a function" without appending a log record. -/
theorem name_panic_is_deferred {σ : Type} (durStr : Int → String) (methodOrFunc : funcs.Value)
    (f : timer.Action σ) (m0 m : timer.Machine σ) (w1 : timer.World σ)
    (hnil : methodOrFunc ≠ funcs.Value.nil) (hkind : methodOrFunc.kind ≠ funcs.Kind.Func)
    (hret : f m.world = timer.Outcome.returned () w1) :
    ∃ wr, timer.NewWithFuncNameInLog durStr true methodOrFunc f m0 =
        timer.Outcome.returned wr m0 ∧
      ∃ m1, wr m = timer.Outcome.panicked
          (funcs.PanicValue.value (funcs.Value.string "funcname: argument must be a function"))
          m1 ∧
        m1.world = w1 ∧
        m1.trace = m.trace ++ [timer.Event.call, timer.Event.resolve methodOrFunc] ∧
        timer.callCount m1.trace = timer.callCount m.trace + 1 ∧
        timer.loggedCount m1.trace = timer.loggedCount m.trace := by
  have hname : funcs.Name methodOrFunc = Except.error funcs.notAFunction := by
    rcases funcs.Name_cases methodOrFunc with ⟨-, h⟩ | ⟨h, -⟩
    · exact h
    · exact absurd h hkind
  refine ⟨_, rfl, _,
    timer.namedClosure_name_panics durStr methodOrFunc _ f m w1 hnil hname hret, rfl, rfl, ?_, ?_⟩
  · simp [timer.callCount, List.filter_append]
  · simp [timer.loggedCount, List.filter_append]

/-- C10, a worked instance: the name source is the integer 5. -/
theorem name_panic_is_deferred_witness :
    (funcs.Value.int 5 ≠ funcs.Value.nil ∧
      (funcs.Value.int 5).kind ≠ funcs.Kind.Func ∧
      timer.sampleAction timer.sampleMachine.world =
        timer.Outcome.returned () { mem := 1, clock := 1583, log := [] }) ∧
    ∃ wr, timer.NewWithFuncNameInLog timer.sampleDurStr true (funcs.Value.int 5)
        timer.sampleAction timer.sampleMachine = timer.Outcome.returned wr timer.sampleMachine ∧
      ∃ m1, wr timer.sampleMachine = timer.Outcome.panicked
          (funcs.PanicValue.value (funcs.Value.string "funcname: argument must be a function"))
          m1 ∧
        m1.world = { mem := 1, clock := 1583, log := [] } ∧
        m1.trace = timer.sampleMachine.trace ++
          [timer.Event.call, timer.Event.resolve (funcs.Value.int 5)] ∧
        timer.callCount m1.trace = timer.callCount timer.sampleMachine.trace + 1 ∧
        timer.loggedCount m1.trace = timer.loggedCount timer.sampleMachine.trace :=
  ⟨⟨by decide, by decide, rfl⟩,
   name_panic_is_deferred timer.sampleDurStr (funcs.Value.int 5) timer.sampleAction
     timer.sampleMachine timer.sampleMachine { mem := 1, clock := 1583, log := [] }
     (by decide) (by decide) rfl⟩

/-- C7, as amended: a wrapper is reusable and keeps nothing between invocations. For an
action `f` that always returns normally, and a wrapper from `New`, or from
`NewWithFuncNameInLog(showName, nameSource, f)` with `showName` false or `nameSource` nil
or a function, `n` invocations in a row all return, call `f` exactly `n` times and append
exactly `n` log records; and the next invocation, the one numbered `n + 1`, runs `f` on the
world those `n` left and appends one record whose duration is the clock reading when that
run of `f` ended minus the reading when that invocation began. -/
theorem wrapper_is_reusable {σ : Type} (durStr : Int → String) (isShowFuncName : Bool)
    (methodOrFunc : funcs.Value) (f : timer.Action σ)
    (hf : ∀ w, ∃ w1, f w = timer.Outcome.returned () w1)
    (hsrc : isShowFuncName = false ∨ methodOrFunc = funcs.Value.nil ∨
      methodOrFunc.kind = funcs.Kind.Func)
    (n : Nat) (m : timer.Machine σ) :
    (∃ mn, timer.invokeTimes (timer.newClosure durStr f) n m = timer.Outcome.returned () mn ∧
      timer.callCount mn.trace = timer.callCount m.trace + n ∧
      timer.loggedCount mn.trace = timer.loggedCount m.trace + n ∧
      ∃ w1, f mn.world = timer.Outcome.returned () w1 ∧
        timer.invokeTimes (timer.newClosure durStr f) (n + 1) m =
          timer.Outcome.returned ()
            { world := { w1 with log := w1.log ++
                [timer.plainRecord (durStr (w1.clock - mn.world.clock))] },
              trace := mn.trace ++ [timer.Event.call, timer.Event.logged
                (timer.plainRecord (durStr (w1.clock - mn.world.clock)))] }) ∧
    (∃ mn, timer.invokeTimes
          (timer.newWithFuncNameInLogClosure durStr isShowFuncName methodOrFunc f) n m =
        timer.Outcome.returned () mn ∧
      timer.callCount mn.trace = timer.callCount m.trace + n ∧
      timer.loggedCount mn.trace = timer.loggedCount m.trace + n ∧
      ∃ w1 line steps, f mn.world = timer.Outcome.returned () w1 ∧
        (line = timer.plainRecord (durStr (w1.clock - mn.world.clock)) ∧
            steps = [timer.Event.call, timer.Event.logged line] ∨
          ∃ name, funcs.Name methodOrFunc = Except.ok name ∧
            line = timer.namedRecord name (durStr (w1.clock - mn.world.clock)) ∧
            steps = [timer.Event.call, timer.Event.resolve methodOrFunc,
              timer.Event.logged line]) ∧
        timer.invokeTimes
            (timer.newWithFuncNameInLogClosure durStr isShowFuncName methodOrFunc f) (n + 1) m =
          timer.Outcome.returned ()
            { world := { w1 with log := w1.log ++ [line] }, trace := mn.trace ++ steps }) := by
  constructor
  · obtain ⟨mn, hmn, hc, hl⟩ := timer.invokeTimes_counts (timer.newClosure durStr f)
      (fun m => by
        obtain ⟨w1, hw1⟩ := hf m.world
        refine ⟨_, timer.newClosure_of_returned durStr f m w1 hw1, ?_, ?_⟩
        · simp [timer.callCount, List.filter_append]
        · simp [timer.loggedCount, List.filter_append]) n m
    obtain ⟨w1, hw1⟩ := hf mn.world
    refine ⟨mn, hmn, hc, hl, w1, hw1, ?_⟩
    rw [timer.invokeTimes_succ_of_returned _ n m mn hmn]
    exact timer.newClosure_of_returned durStr f mn w1 hw1
  · obtain ⟨mn, hmn, hc, hl⟩ := timer.invokeTimes_counts
      (timer.newWithFuncNameInLogClosure durStr isShowFuncName methodOrFunc f)
      (fun m => by
        obtain ⟨w1, hw1⟩ := hf m.world
        obtain ⟨line, steps, hcase, hrun⟩ :=
          timer.namedClosure_step durStr isShowFuncName methodOrFunc f m w1 hsrc hw1
        refine ⟨_, hrun, ?_, ?_⟩
        · rcases hcase with ⟨-, hs⟩ | ⟨name, -, -, hs⟩ <;>
            simp [hs, timer.callCount, List.filter_append]
        · rcases hcase with ⟨-, hs⟩ | ⟨name, -, -, hs⟩ <;>
            simp [hs, timer.loggedCount, List.filter_append]) n m
    obtain ⟨w1, hw1⟩ := hf mn.world
    obtain ⟨line, steps, hcase, hrun⟩ :=
      timer.namedClosure_step durStr isShowFuncName methodOrFunc f mn w1 hsrc hw1
    refine ⟨mn, hmn, hc, hl, w1, line, steps, hw1, hcase, ?_⟩
    rw [timer.invokeTimes_succ_of_returned _ n m mn hmn]
    exact hrun

/-- C7, a worked instance: the sample action, named after `main.isPalindrome`, two
invocations and then a third. -/
theorem wrapper_is_reusable_witness :
    ((∀ w, ∃ w1, timer.sampleAction w = timer.Outcome.returned () w1) ∧
      (true = false ∨ funcs.Value.func "main.isPalindrome" = funcs.Value.nil ∨
        (funcs.Value.func "main.isPalindrome").kind = funcs.Kind.Func)) ∧
    (∃ mn, timer.invokeTimes (timer.newClosure timer.sampleDurStr timer.sampleAction) 2
          timer.sampleMachine = timer.Outcome.returned () mn ∧
      timer.callCount mn.trace = timer.callCount timer.sampleMachine.trace + 2 ∧
      timer.loggedCount mn.trace = timer.loggedCount timer.sampleMachine.trace + 2 ∧
      ∃ w1, timer.sampleAction mn.world = timer.Outcome.returned () w1 ∧
        timer.invokeTimes (timer.newClosure timer.sampleDurStr timer.sampleAction) (2 + 1)
            timer.sampleMachine =
          timer.Outcome.returned ()
            { world := { w1 with log := w1.log ++
                [timer.plainRecord (timer.sampleDurStr (w1.clock - mn.world.clock))] },
              trace := mn.trace ++ [timer.Event.call, timer.Event.logged
                (timer.plainRecord (timer.sampleDurStr (w1.clock - mn.world.clock)))] }) ∧
    (∃ mn, timer.invokeTimes
          (timer.newWithFuncNameInLogClosure timer.sampleDurStr true
            (funcs.Value.func "main.isPalindrome") timer.sampleAction) 2 timer.sampleMachine =
        timer.Outcome.returned () mn ∧
      timer.callCount mn.trace = timer.callCount timer.sampleMachine.trace + 2 ∧
      timer.loggedCount mn.trace = timer.loggedCount timer.sampleMachine.trace + 2 ∧
      ∃ w1 line steps, timer.sampleAction mn.world = timer.Outcome.returned () w1 ∧
        (line = timer.plainRecord (timer.sampleDurStr (w1.clock - mn.world.clock)) ∧
            steps = [timer.Event.call, timer.Event.logged line] ∨
          ∃ name, funcs.Name (funcs.Value.func "main.isPalindrome") = Except.ok name ∧
            line = timer.namedRecord name (timer.sampleDurStr (w1.clock - mn.world.clock)) ∧
            steps = [timer.Event.call,
              timer.Event.resolve (funcs.Value.func "main.isPalindrome"),
              timer.Event.logged line]) ∧
        timer.invokeTimes
            (timer.newWithFuncNameInLogClosure timer.sampleDurStr true
              (funcs.Value.func "main.isPalindrome") timer.sampleAction) (2 + 1)
            timer.sampleMachine =
          timer.Outcome.returned ()
            { world := { w1 with log := w1.log ++ [line] }, trace := mn.trace ++ steps }) :=
  ⟨⟨fun _ => ⟨_, rfl⟩, Or.inr (Or.inr rfl)⟩,
   wrapper_is_reusable timer.sampleDurStr true (funcs.Value.func "main.isPalindrome")
     timer.sampleAction (fun _ => ⟨_, rfl⟩) (Or.inr (Or.inr rfl)) 2 timer.sampleMachine⟩

/-- C7 as stated fails: the sample action always returns normally, yet one invocation of
the wrapper `NewWithFuncNameInLog(true, 5, sampleAction)` calls it once and panics in
`Name`, so one invocation does not leave one log record. -/
theorem wrapper_is_reusable_counterexample :
    (∀ w, ∃ w1, timer.sampleAction w = timer.Outcome.returned () w1) ∧
    timer.invokeTimes
        (timer.newWithFuncNameInLogClosure timer.sampleDurStr true (funcs.Value.int 5)
          timer.sampleAction) 1 timer.sampleMachine =
      timer.Outcome.panicked
        (funcs.PanicValue.value (funcs.Value.string "funcname: argument must be a function"))
        { world := { mem := 1, clock := 1583, log := [] },
          trace := [timer.Event.call, timer.Event.resolve (funcs.Value.int 5)] } ∧
    ¬ ∃ mn, timer.invokeTimes
          (timer.newWithFuncNameInLogClosure timer.sampleDurStr true (funcs.Value.int 5)
            timer.sampleAction) 1 timer.sampleMachine = timer.Outcome.returned () mn ∧
        timer.callCount mn.trace = timer.callCount timer.sampleMachine.trace + 1 ∧
        timer.loggedCount mn.trace = timer.loggedCount timer.sampleMachine.trace + 1 := by
  have hrun : timer.invokeTimes
        (timer.newWithFuncNameInLogClosure timer.sampleDurStr true (funcs.Value.int 5)
          timer.sampleAction) 1 timer.sampleMachine =
      timer.Outcome.panicked
        (funcs.PanicValue.value (funcs.Value.string "funcname: argument must be a function"))
        { world := { mem := 1, clock := 1583, log := [] },
          trace := [timer.Event.call, timer.Event.resolve (funcs.Value.int 5)] } := rfl
  refine ⟨fun _ => ⟨_, rfl⟩, hrun, ?_⟩
  rintro ⟨mn, hmn, -⟩
  rw [hrun] at hmn
  cases hmn

/-- C9, as amended: when `f` returns normally, the wrapper
`NewWithFuncNameInLog(showName, nameSource, f)` appends a record with a name segment if and
only if `showName` is true and `nameSource` is a function, and the name in it is then
`Name(nameSource)`. With `showName` false (whatever `nameSource` is, callable or not) or
`nameSource` nil, it never calls `Name`, does not panic, and appends exactly the plain
record `-- func executed in <duration> --`. With `showName` true and a `nameSource` that
is neither nil nor a function, it calls `Name`, which panics, and appends no record. -/
theorem name_segment_iff_callable {σ : Type} (durStr : Int → String) (isShowFuncName : Bool)
    (methodOrFunc : funcs.Value) (f : timer.Action σ) (m : timer.Machine σ) (w1 : timer.World σ)
    (hret : f m.world = timer.Outcome.returned () w1) :
    ((∃ n m1, timer.newWithFuncNameInLogClosure durStr isShowFuncName methodOrFunc f m =
          timer.Outcome.returned () m1 ∧
        m1.world.log = w1.log ++
          [timer.namedRecord n (durStr (w1.clock - m.world.clock))]) ↔
      (isShowFuncName = true ∧ methodOrFunc.kind = funcs.Kind.Func)) ∧
    (isShowFuncName = true ∧ methodOrFunc.kind = funcs.Kind.Func →
      ∃ n, funcs.Name methodOrFunc = Except.ok n ∧
        timer.newWithFuncNameInLogClosure durStr isShowFuncName methodOrFunc f m =
          timer.Outcome.returned ()
            { world := { w1 with log := w1.log ++
                [timer.namedRecord n (durStr (w1.clock - m.world.clock))] },
              trace := m.trace ++
                [timer.Event.call, timer.Event.resolve methodOrFunc, timer.Event.logged
                  (timer.namedRecord n (durStr (w1.clock - m.world.clock)))] }) ∧
    (isShowFuncName = false ∨ methodOrFunc = funcs.Value.nil →
      timer.newWithFuncNameInLogClosure durStr isShowFuncName methodOrFunc f m =
        timer.Outcome.returned ()
          { world := { w1 with log := w1.log ++
              [timer.plainRecord (durStr (w1.clock - m.world.clock))] },
            trace := m.trace ++ [timer.Event.call, timer.Event.logged
              (timer.plainRecord (durStr (w1.clock - m.world.clock)))] }) ∧
    (isShowFuncName = true ∧ methodOrFunc ≠ funcs.Value.nil ∧
        methodOrFunc.kind ≠ funcs.Kind.Func →
      timer.newWithFuncNameInLogClosure durStr isShowFuncName methodOrFunc f m =
        timer.Outcome.panicked
          (funcs.PanicValue.value (funcs.Value.string "funcname: argument must be a function"))
          { world := w1,
            trace := m.trace ++ [timer.Event.call, timer.Event.resolve methodOrFunc] }) := by
  have hnamed : isShowFuncName = true ∧ methodOrFunc.kind = funcs.Kind.Func →
      ∃ n, funcs.Name methodOrFunc = Except.ok n ∧
        timer.newWithFuncNameInLogClosure durStr isShowFuncName methodOrFunc f m =
          timer.Outcome.returned ()
            { world := { w1 with log := w1.log ++
                [timer.namedRecord n (durStr (w1.clock - m.world.clock))] },
              trace := m.trace ++
                [timer.Event.call, timer.Event.resolve methodOrFunc, timer.Event.logged
                  (timer.namedRecord n (durStr (w1.clock - m.world.clock)))] } := by
    rintro ⟨hshow, hkind⟩
    subst hshow
    have hnil : methodOrFunc ≠ funcs.Value.nil := by
      intro h
      rw [h] at hkind
      cases hkind
    rcases funcs.Name_cases methodOrFunc with ⟨h, -⟩ | ⟨-, n, hn⟩
    · exact absurd hkind h
    · exact ⟨n, hn, timer.namedClosure_named durStr methodOrFunc n f m w1 hnil hn hret⟩
  have hplain : isShowFuncName = false ∨ methodOrFunc = funcs.Value.nil →
      timer.newWithFuncNameInLogClosure durStr isShowFuncName methodOrFunc f m =
        timer.Outcome.returned ()
          { world := { w1 with log := w1.log ++
              [timer.plainRecord (durStr (w1.clock - m.world.clock))] },
            trace := m.trace ++ [timer.Event.call, timer.Event.logged
              (timer.plainRecord (durStr (w1.clock - m.world.clock)))] } := by
    intro h
    apply timer.namedClosure_plain durStr isShowFuncName methodOrFunc f m w1 _ hret
    rcases h with h | h <;> simp [h]
  have hpanics : isShowFuncName = true ∧ methodOrFunc ≠ funcs.Value.nil ∧
        methodOrFunc.kind ≠ funcs.Kind.Func →
      timer.newWithFuncNameInLogClosure durStr isShowFuncName methodOrFunc f m =
        timer.Outcome.panicked
          (funcs.PanicValue.value (funcs.Value.string "funcname: argument must be a function"))
          { world := w1,
            trace := m.trace ++ [timer.Event.call, timer.Event.resolve methodOrFunc] } := by
    rintro ⟨hshow, hnil, hkind⟩
    subst hshow
    rcases funcs.Name_cases methodOrFunc with ⟨-, h⟩ | ⟨h, -⟩
    · exact timer.namedClosure_name_panics durStr methodOrFunc _ f m w1 hnil h hret
    · exact absurd h hkind
  refine ⟨⟨?_, ?_⟩, hnamed, hplain, hpanics⟩
  · rintro ⟨n, m1, hrun, hlog⟩
    by_cases hshow : isShowFuncName = true
    · by_cases hkind : methodOrFunc.kind = funcs.Kind.Func
      · exact ⟨hshow, hkind⟩
      · by_cases hnil : methodOrFunc = funcs.Value.nil
        · rw [hplain (Or.inr hnil)] at hrun
          cases hrun
          simp only [List.append_cancel_left_eq, List.cons.injEq, and_true] at hlog
          exact absurd hlog.symm (timer.namedRecord_ne_plainRecord _ _)
        · rw [hpanics ⟨hshow, hnil, hkind⟩] at hrun
          cases hrun
    · have hfalse : isShowFuncName = false := by simpa using hshow
      rw [hplain (Or.inl hfalse)] at hrun
      cases hrun
      simp only [List.append_cancel_left_eq, List.cons.injEq, and_true] at hlog
      exact absurd hlog.symm (timer.namedRecord_ne_plainRecord _ _)
  · intro h
    obtain ⟨n, -, hrun⟩ := hnamed h
    exact ⟨n, _, hrun, rfl⟩

/-- C9, a worked instance: the flag is off and the name source is the integer 5, which is
not callable; the wrapper logs the plain record and never calls `Name`. -/
theorem name_segment_iff_callable_witness :
    timer.sampleAction timer.sampleMachine.world =
      timer.Outcome.returned () { mem := 1, clock := 1583, log := [] } ∧
    timer.newWithFuncNameInLogClosure timer.sampleDurStr false (funcs.Value.int 5)
        timer.sampleAction timer.sampleMachine =
      timer.Outcome.returned ()
        { world := { mem := 1, clock := 1583, log := [] ++
            [timer.plainRecord (timer.sampleDurStr (1583 - timer.sampleMachine.world.clock))] },
          trace := timer.sampleMachine.trace ++ [timer.Event.call, timer.Event.logged
            (timer.plainRecord
              (timer.sampleDurStr (1583 - timer.sampleMachine.world.clock)))] } :=
  ⟨rfl,
   (name_segment_iff_callable timer.sampleDurStr false (funcs.Value.int 5) timer.sampleAction
     timer.sampleMachine { mem := 1, clock := 1583, log := [] } rfl).2.2.1 (Or.inl rfl)⟩

/-- C9 as stated fails: with `showName` true and the integer 5 as name source (not nil),
the sample action returns normally, but the wrapper panics in `Name` and appends no
record at all, so "a record with a name segment" does not go with "`showName` is true and
`nameSource` is not nil". -/
theorem name_segment_counterexample :
    timer.sampleAction timer.sampleMachine.world =
      timer.Outcome.returned () { mem := 1, clock := 1583, log := [] } ∧
    timer.newWithFuncNameInLogClosure timer.sampleDurStr true (funcs.Value.int 5)
        timer.sampleAction timer.sampleMachine =
      timer.Outcome.panicked
        (funcs.PanicValue.value (funcs.Value.string "funcname: argument must be a function"))
        { world := { mem := 1, clock := 1583, log := [] },
          trace := [timer.Event.call, timer.Event.resolve (funcs.Value.int 5)] } ∧
    ¬ ((∃ n m1, timer.newWithFuncNameInLogClosure timer.sampleDurStr true (funcs.Value.int 5)
            timer.sampleAction timer.sampleMachine = timer.Outcome.returned () m1 ∧
          m1.world.log = [] ++ [timer.namedRecord n (timer.sampleDurStr (1583 - 1000))]) ↔
        (true = true ∧ funcs.Value.int 5 ≠ funcs.Value.nil)) := by
  have hrun : timer.newWithFuncNameInLogClosure timer.sampleDurStr true (funcs.Value.int 5)
        timer.sampleAction timer.sampleMachine =
      timer.Outcome.panicked
        (funcs.PanicValue.value (funcs.Value.string "funcname: argument must be a function"))
        { world := { mem := 1, clock := 1583, log := [] },
          trace := [timer.Event.call, timer.Event.resolve (funcs.Value.int 5)] } := rfl
  refine ⟨rfl, hrun, ?_⟩
  intro hiff
  obtain ⟨n, m1, hm1, -⟩ := hiff.mpr ⟨rfl, by decide⟩
  rw [hrun] at hm1
  cases hm1
